import Mathlib

/-!
Shallow embedding of the CLDR date/time pattern formatter of `src/time.rs`
(the `Time` trait with its default method bodies, the private nom pattern
grammars `do_format_date`, `do_format_time`, `do_format_zone`,
`do_format_other`, and the entry point `Time::format_datetime_to`),
together with proofs checking the repository's specification claims.

Conventions of the embedding:

* `chrono::NaiveDate` / `chrono::NaiveTime` are external collaborators; they
  are modelled as records of exactly the accessors the repository reads
  (`year`, `month`, `day`, `ordinal`, `iso_week().week()`,
  `iso_week().year()`, `weekday`, `hour`, `minute`, `second`, `nanosecond`).
  The derived chrono helpers `year_ce` and `hour12` are embedded following
  chrono's documented definitions, since claims quantify over their inputs.
* The `Time` trait is a structure of functions whose defaults are the
  trait's default method bodies (the invariant English locale).
* `fmt::Result` plus the output sink is modelled as `Except Unit (List Char)`:
  either the formatting error or the text written.
* nom's `fold_many0` loop is embedded with explicit fuel; the entry point
  supplies `pattern.length + 1` fuel, which the loop can never exhaust since
  every grammar alternative consumes at least one character, so running out
  of fuel coincides with the loop's normal stop.
-/

/-- The single-quote character, written via its code point throughout. -/
def squote : Char := Char.ofNat 39

-- ------ style taxonomy (from src/time.rs) ----------------------------------

/-- Calendar type (`enum Calendar`): only Gregorian plus an extension
placeholder that must never be matched. -/
inductive Calendar where
  | Gregorian
  | MoreCalendars
deriving DecidableEq

/-- Format style and width (`enum FormatWidth`). -/
inductive FormatWidth where
  | FormatAbbr
  | FormatWide
  | FormatNarrow
  | FormatShort
  | StandAloneAbbr
  | StandAloneWide
  | StandAloneNarrow
  | StandAloneShort
deriving DecidableEq

/-- Day period classification (`enum DayPeriod`). -/
inductive DayPeriod where
  | AM
  | PM
  | Midnight
  | Noon
deriving DecidableEq

/-- `chrono::Weekday`, re-exported by the source. -/
inductive Weekday where
  | Mon
  | Tue
  | Wed
  | Thu
  | Fri
  | Sat
  | Sun
deriving DecidableEq

/-- chrono's `Weekday::num_days_from_sunday` (Sunday = 0, Monday = 1, ...). -/
def Weekday.num_days_from_sunday : Weekday → Nat
  | .Sun => 0
  | .Mon => 1
  | .Tue => 2
  | .Wed => 3
  | .Thu => 4
  | .Fri => 5
  | .Sat => 6

-- ------ external date/time values (narrow chrono interface) ----------------

/-- The view of a `chrono::NaiveDate` the formatter consumes: one field per
chrono accessor called by `do_format_date`. -/
structure NaiveDate where
  year : Int
  month : Nat
  day : Nat
  ordinal : Nat
  isoWeek : Nat
  isoWeekYear : Int
  weekday : Weekday
deriving DecidableEq

/-- chrono's `Datelike::year_ce`: `(true, year)` for CE years (year ≥ 1),
`(false, 1 - year)` for BCE years. -/
def NaiveDate.year_ce (d : NaiveDate) : Bool × Nat :=
  if d.year < 1 then (false, (1 - d.year).toNat) else (true, d.year.toNat)

/-- chrono's `Datelike::month0` (zero-based month). -/
def NaiveDate.month0 (d : NaiveDate) : Nat := d.month - 1

/-- The view of a `chrono::NaiveTime` the formatter consumes. A leap second
is represented by `nanosecond ≥ 1,000,000,000`, as in chrono. -/
structure NaiveTime where
  hour : Nat
  minute : Nat
  second : Nat
  nanosecond : Nat
deriving DecidableEq

/-- chrono's `Timelike::hour12`: a boolean PM flag together with the hour in
the 1–12 cycle. -/
def NaiveTime.hour12 (t : NaiveTime) : Bool × Nat :=
  let h12 := t.hour % 12
  (12 ≤ t.hour, if h12 = 0 then 12 else h12)

-- ------ default facet method bodies (the invariant locale) -----------------

/-- Decimal digits of `n`, zero-padded on the left to `w` characters; this is
Rust's `format!("{value:0width$}")` for an unsigned value. -/
def padNum (w : Nat) (n : Nat) : List Char :=
  let ds := (Nat.repr n).data
  List.replicate (w - ds.length) '0' ++ ds

/-- Rust's `format!("{value:0width$}")` for a signed value: the minus sign is
emitted first and the zero padding fills up to the total width. -/
def padInt (w : Nat) (n : Int) : List Char :=
  if n < 0 then '-' :: padNum (w - 1) n.natAbs else padNum w n.toNat

/-- Default body of `Time::fmt_number`: non-locale-aware zero-padded digits. -/
def defaultFmtNumber (n : Int) (digits : Nat) : Except Unit (List Char) :=
  .ok (padInt digits n)

/-- The English month names of the default `Time::fmt_month`. -/
def monthNames : List String :=
  ["January", "February", "March", "April", "May", "June",
   "July", "August", "September", "October", "November", "December"]

/-- Default body of `Time::fmt_month`: English names for the Gregorian
calendar, truncated to three letters (abbr/short) or one letter (narrow).
The source indexes `MONTHS[n - 1]`; an out-of-range month would panic there,
which is not modelled (the dispatcher only passes `date.month()`). -/
def defaultFmtMonth (w : FormatWidth) (c : Calendar) (n : Nat) :
    Except Unit (List Char) :=
  if c ≠ Calendar.Gregorian then .error () else
  let name := ((monthNames.getD (n - 1) "").data)
  match w with
  | .FormatWide | .StandAloneWide => .ok name
  | .FormatAbbr | .StandAloneAbbr | .FormatShort | .StandAloneShort =>
      .ok (name.take 3)
  | .FormatNarrow | .StandAloneNarrow => .ok (name.take 1)

/-- The English weekday names of the default `Time::fmt_day`, indexed by
`num_days_from_sunday`. -/
def dayNames : List String :=
  ["Sunday", "Monday", "Tuesday", "Wednesday", "Thursday", "Friday",
   "Saturday"]

/-- Default body of `Time::fmt_day`. -/
def defaultFmtDay (w : FormatWidth) (c : Calendar) (d : Weekday) :
    Except Unit (List Char) :=
  if c ≠ Calendar.Gregorian then .error () else
  let name := ((dayNames.getD d.num_days_from_sunday "").data)
  match w with
  | .FormatWide | .StandAloneWide => .ok name
  | .FormatAbbr | .StandAloneAbbr | .FormatShort | .StandAloneShort =>
      .ok (name.take 3)
  | .FormatNarrow | .StandAloneNarrow => .ok (name.take 1)

/-- Default body of `Time::fmt_quarter`: `Q` followed by the number, for any
width and calendar. -/
def defaultFmtQuarter (_w : FormatWidth) (_c : Calendar) (n : Nat) :
    Except Unit (List Char) :=
  .ok ('Q' :: (Nat.repr n).data)

/-- Default body of `Time::fmt_period`: AM and Midnight collapse to "AM",
PM and Noon collapse to "PM". -/
def defaultFmtPeriod (_w : FormatWidth) (_c : Calendar) (p : DayPeriod) :
    Except Unit (List Char) :=
  match p with
  | .AM | .Midnight => .ok ("AM").data
  | .PM | .Noon => .ok ("PM").data

/-- Default body of `Time::fmt_era`: BCE/CE for the Gregorian calendar. -/
def defaultFmtEra (_w : FormatWidth) (c : Calendar) (n : Nat) :
    Except Unit (List Char) :=
  if c ≠ Calendar.Gregorian then .error () else
  match n with
  | 0 => .ok ("BCE").data
  | 1 => .ok ("CE").data
  | _ => .error ()

/-- The `Time` trait as a record of its overridable methods, with the
trait's default bodies as defaults.  The `get_date_format`,
`get_time_format` and `get_datetime_format` defaults are the identity and
are inlined in `format_datetime_to` below. -/
structure TimeFacet where
  get_week_start : Weekday := Weekday.Mon
  fmt_month : FormatWidth → Calendar → Nat → Except Unit (List Char) :=
    defaultFmtMonth
  fmt_day : FormatWidth → Calendar → Weekday → Except Unit (List Char) :=
    defaultFmtDay
  fmt_quarter : FormatWidth → Calendar → Nat → Except Unit (List Char) :=
    defaultFmtQuarter
  fmt_period : FormatWidth → Calendar → DayPeriod → Except Unit (List Char) :=
    defaultFmtPeriod
  fmt_era : FormatWidth → Calendar → Nat → Except Unit (List Char) :=
    defaultFmtEra
  fmt_number : Int → Nat → Except Unit (List Char) := defaultFmtNumber

/-- The facet with every method left at its trait default (the invariant
English locale, as used by the repository's own test). -/
def defaultFacet : TimeFacet := {}

-- ------ nom primitives -----------------------------------------------------

/-- nom's `is_a_s!(set)`: the maximal nonempty prefix of characters from
`S`, or failure. Returns the matched run and the remaining input. -/
def isA (S : List Char) (input : List Char) :
    Option (List Char × List Char) :=
  if input.takeWhile (fun c => decide (c ∈ S)) = [] then none
  else some (input.takeWhile (fun c => decide (c ∈ S)),
    input.dropWhile (fun c => decide (c ∈ S)))

/-- nom's `is_not_s!(set)`: the maximal nonempty prefix of characters not in
`S`, or failure. -/
def isNot (S : List Char) (input : List Char) :
    Option (List Char × List Char) :=
  if input.takeWhile (fun c => !(decide (c ∈ S))) = [] then none
  else some (input.takeWhile (fun c => !(decide (c ∈ S))),
    input.dropWhile (fun c => !(decide (c ∈ S))))

/-- nom's `tag_s!(t)`: consume exactly `t`, returning the remaining input. -/
def tag (t : List Char) (input : List Char) : Option (List Char) :=
  if input.take t.length = t then some (input.drop t.length) else none

-- ------ field dispatch branches --------------------------------------------

/-- One formatting step's outcome: the value produced by a grammar
alternative (the text written, or the formatting error). -/
abbrev FmtRes := Except Unit (List Char)

/-- A list of `alt_complete!` alternatives, each an `is_a_s!` character set
together with the `map!` closure applied to the matched run. -/
abbrev FieldBranches := List (List Char × (List Char → FmtRes))

/-- Run the first alternative whose `is_a_s!` set matches, as
`alt_complete!` does. -/
def fieldAlts (bs : FieldBranches) (input : List Char) :
    Option (List Char × FmtRes) :=
  match bs with
  | [] => none
  | (S, k) :: rest =>
    match isA S input with
    | some (tk, r) => some (r, k tk)
    | none => fieldAlts rest input

/-- The alternatives of `do_format_date`, in source order. -/
def dateBranches (f : TimeFacet) (d : NaiveDate) : FieldBranches :=
  [ (['G'], fun s =>
      match s.length with
      | 1 | 2 | 3 => f.fmt_era .FormatAbbr .Gregorian
          (if (d.year_ce).1 then 1 else 0)
      | 4 => f.fmt_era .FormatWide .Gregorian (if (d.year_ce).1 then 1 else 0)
      | 5 => f.fmt_era .FormatNarrow .Gregorian
          (if (d.year_ce).1 then 1 else 0)
      | _ => .error ()),
    (['y'], fun s =>
      let y := (d.year_ce).2
      let yy := if s.length = 2 then y % 100 else y
      f.fmt_number (Int.ofNat yy) s.length),
    (['Y'], fun s =>
      let y := d.isoWeekYear
      let yy := if s.length = 2 then Int.tmod y 100 else y
      f.fmt_number yy s.length),
    (['u'], fun s => f.fmt_number d.year s.length),
    (['q', 'Q'], fun s =>
      let q := d.month0 / 3 + 1
      if s.length ≤ 2 then f.fmt_number (Int.ofNat q) s.length
      else if s = ['Q', 'Q', 'Q'] then
        f.fmt_quarter .FormatAbbr .Gregorian q
      else if s = ['Q', 'Q', 'Q', 'Q'] then
        f.fmt_quarter .FormatWide .Gregorian q
      else if s = ['Q', 'Q', 'Q', 'Q', 'Q'] then
        f.fmt_quarter .FormatNarrow .Gregorian q
      else if s = ['q', 'q', 'q'] then
        f.fmt_quarter .StandAloneAbbr .Gregorian q
      else if s = ['q', 'q', 'q', 'q'] then
        f.fmt_quarter .StandAloneWide .Gregorian q
      else if s = ['q', 'q', 'q', 'q', 'q'] then
        f.fmt_quarter .StandAloneNarrow .Gregorian q
      else .error ()),
    (['M', 'L'], fun s =>
      if s.length ≤ 2 then f.fmt_number (Int.ofNat d.month) s.length
      else if s = ['M', 'M', 'M'] then
        f.fmt_month .FormatAbbr .Gregorian d.month
      else if s = ['M', 'M', 'M', 'M'] then
        f.fmt_month .FormatWide .Gregorian d.month
      else if s = ['M', 'M', 'M', 'M', 'M'] then
        f.fmt_month .FormatNarrow .Gregorian d.month
      else if s = ['L', 'L', 'L'] then
        f.fmt_month .StandAloneAbbr .Gregorian d.month
      else if s = ['L', 'L', 'L', 'L'] then
        f.fmt_month .StandAloneWide .Gregorian d.month
      else if s = ['L', 'L', 'L', 'L', 'L'] then
        f.fmt_month .StandAloneNarrow .Gregorian d.month
      else .error ()),
    (['w'], fun s => f.fmt_number (Int.ofNat d.isoWeek) s.length),
    (['d'], fun s => f.fmt_number (Int.ofNat d.day) s.length),
    (['D'], fun s => f.fmt_number (Int.ofNat d.ordinal) s.length),
    (['E', 'e', 'c'], fun s =>
      if s = ['e'] ∨ s = ['e', 'e'] ∨ s = ['c'] ∨ s = ['c', 'c'] then
        let n := (d.weekday.num_days_from_sunday + 7
            - (f.get_week_start).num_days_from_sunday) % 7 + 1
        f.fmt_number (Int.ofNat n) s.length
      else if s = ['E'] ∨ s = ['E', 'E'] ∨ s = ['E', 'E', 'E']
          ∨ s = ['e', 'e', 'e'] then
        f.fmt_day .FormatAbbr .Gregorian d.weekday
      else if s = ['E', 'E', 'E', 'E'] ∨ s = ['e', 'e', 'e', 'e'] then
        f.fmt_day .FormatWide .Gregorian d.weekday
      else if s = ['E', 'E', 'E', 'E', 'E'] ∨ s = ['e', 'e', 'e', 'e', 'e'] then
        f.fmt_day .FormatNarrow .Gregorian d.weekday
      else if s = ['E', 'E', 'E', 'E', 'E', 'E']
          ∨ s = ['e', 'e', 'e', 'e', 'e', 'e'] then
        f.fmt_day .FormatShort .Gregorian d.weekday
      else if s = ['c', 'c', 'c'] then
        f.fmt_day .StandAloneAbbr .Gregorian d.weekday
      else if s = ['c', 'c', 'c', 'c'] then
        f.fmt_day .StandAloneWide .Gregorian d.weekday
      else if s = ['c', 'c', 'c', 'c', 'c'] then
        f.fmt_day .StandAloneNarrow .Gregorian d.weekday
      else if s = ['c', 'c', 'c', 'c', 'c', 'c'] then
        f.fmt_day .StandAloneShort .Gregorian d.weekday
      else .error ()) ]

/-- The private `do_format_date` grammar. -/
def do_format_date (f : TimeFacet) (d : NaiveDate) (input : List Char) :
    Option (List Char × FmtRes) :=
  fieldAlts (dateBranches f d) input

/-- The alternatives of `do_format_time`, in source order. -/
def timeBranches (f : TimeFacet) (t : NaiveTime) : FieldBranches :=
  [ (['a'], fun s =>
      let p := if t.hour < 12 then DayPeriod.AM else DayPeriod.PM
      if s = ['a'] ∨ s = ['a', 'a'] ∨ s = ['a', 'a', 'a'] then
        f.fmt_period .FormatAbbr .Gregorian p
      else if s = ['a', 'a', 'a', 'a'] then
        f.fmt_period .FormatWide .Gregorian p
      else if s = ['a', 'a', 'a', 'a', 'a'] then
        f.fmt_period .FormatNarrow .Gregorian p
      else .error ()),
    (['b'], fun s =>
      let p :=
        if t.hour = 0 ∧ t.minute = 0 ∧ t.second = 0 then DayPeriod.Midnight
        else if t.hour = 12 ∧ t.minute = 0 ∧ t.second = 0 then DayPeriod.Noon
        else if t.hour < 12 then DayPeriod.AM
        else DayPeriod.PM
      if s = ['b'] ∨ s = ['b', 'b'] ∨ s = ['b', 'b', 'b'] then
        f.fmt_period .FormatAbbr .Gregorian p
      else if s = ['b', 'b', 'b', 'b'] then
        f.fmt_period .FormatWide .Gregorian p
      else if s = ['b', 'b', 'b', 'b', 'b'] then
        f.fmt_period .FormatNarrow .Gregorian p
      else .error ()),
    (['h'], fun s => f.fmt_number (Int.ofNat (t.hour12).2) s.length),
    (['H'], fun s => f.fmt_number (Int.ofNat t.hour) s.length),
    (['K'], fun s => f.fmt_number (Int.ofNat (t.hour % 12)) s.length),
    (['k'], fun s =>
      let h := t.hour
      f.fmt_number (Int.ofNat (if h = 0 then 24 else h)) s.length),
    (['m'], fun s => f.fmt_number (Int.ofNat t.minute) s.length),
    (['s'], fun s =>
      let sec := t.second + (if 1000000000 ≤ t.nanosecond then 1 else 0)
      f.fmt_number (Int.ofNat sec) s.length),
    (['S'], fun s =>
      let ns := t.nanosecond % 1000000000
      let fs :=
        if s.length < 9 then ns / 10 ^ s.length
        else if s.length = 9 then ns
        else (ns * 10 ^ s.length) % 2 ^ 32
      f.fmt_number (Int.ofNat fs) s.length) ]

/-- The private `do_format_time` grammar.  The `S` branch's `w > 9` case is
`ns * 10u32.pow(w)`, a `u32` multiplication that overflows for every
`w > 9`; it is modelled as the release-mode wrap `% 2^32`. -/
def do_format_time (f : TimeFacet) (t : NaiveTime) (input : List Char) :
    Option (List Char × FmtRes) :=
  fieldAlts (timeBranches f t) input

/-- Modelled from the spec: the source `do_format_zone` body is an explicit
unfinished placeholder (a `FIXME` branch with no return value, for the
unimplemented zone letters); per the spec, unsupported zone letters
currently fail.  Only its parse shape (a maximal run of `z`) is kept, with
a failing rendering result. -/
def do_format_zone (input : List Char) : Option (List Char × FmtRes) :=
  fieldAlts [(['z'], fun _ => .error ())] input

-- ------ literal-text grammar (`do_format_other`) ---------------------------

/-- The source's exclusion set for the literal-text branch: a single quote
followed by the 52 ASCII letters, exactly as written in `is_not_s!` (the
source lists the lowercase letters in the order `...q r t s u...`; the set
is the same). -/
def sourceLetters : List Char :=
  ("ABCDEFGHIJKLMNOPQRSTUVWXYZabcdefghijklmnopqrtsuvwxyz").data

/-- The literal-text branch of `do_format_other`: a maximal nonempty run of
characters that are neither a quote nor an ASCII letter. -/
def literalRun (input : List Char) : Option (List Char × List Char) :=
  isNot (squote :: sourceLetters) input

/-- One piece of a quoted literal's body: a nonempty run of non-quote
characters, or an escaped quote pair. -/
def pieceStep (input : List Char) : Option (List Char × List Char) :=
  match isNot [squote] input with
  | some r => some r
  | none =>
    match tag [squote, squote] input with
    | some r => some ([squote, squote], r)
    | none => none

/-- nom's `many1!` over `pieceStep`, with fuel; returns the pieces in order
and the remaining input.  Exhausted fuel is a parse failure, which is
unreachable from `do_format_other` since every piece consumes at least one
character and the fuel supplied exceeds the input length. -/
def manyPieces : Nat → List Char → Option (List (List Char) × List Char)
  | 0, _ => none
  | fuel + 1, input =>
    match pieceStep input with
    | none => some ([], input)
    | some (p, r) =>
      match manyPieces fuel r with
      | none => none
      | some (ps, rest) => some (p :: ps, rest)

/-- The private `do_format_other` grammar: a literal run, an unquoted escaped
quote pair (written back verbatim, as the source's `write_str(s)` does), or
a quoted literal whose internal `''` pairs collapse to single quotes. -/
def do_format_other (input : List Char) : Option (List Char × FmtRes) :=
  match literalRun input with
  | some (tk, r) => some (r, .ok tk)
  | none =>
  match tag [squote, squote] input with
  | some r => some (r, .ok [squote, squote])
  | none =>
  match tag [squote] input with
  | none => none
  | some r1 =>
    match manyPieces (r1.length + 1) r1 with
    | none => none
    | some ([], _) => none
    | some (ps, r2) =>
      match tag [squote] r2 with
      | none => none
      | some r3 =>
        some (r3, .ok ((ps.map
          (fun p => if p = [squote, squote] then [squote] else p)).flatten))

-- ------ entry point --------------------------------------------------------

/-- One iteration of the entry point's `alt!`: the date grammar when a date
was supplied, then the time grammar when a time was supplied, then the zone
grammar when the zone info is not `TimeZoneInfo::None`, then the literal
grammar (`cond_reduce!` disables a branch whose input is missing). -/
def formatStep (f : TimeFacet) (dateO : Option NaiveDate)
    (timeO : Option NaiveTime) (tzSome : Bool) (input : List Char) :
    Option (List Char × FmtRes) :=
  (match dateO with
   | some d => do_format_date f d input
   | none => none) <|>
  (match timeO with
   | some t => do_format_time f t input
   | none => none) <|>
  (if tzSome then do_format_zone input else none) <|>
  do_format_other input

/-- Combine one step's outcome with the rest of the fold, as
`fold_many0!`'s `|a, e| a.and(e)` does (the first formatting error wins; on
success the written text is the concatenation). -/
def resAnd (v : FmtRes) (acc : FmtRes) : FmtRes :=
  match v with
  | .error e => .error e
  | .ok tk =>
    match acc with
    | .error e => .error e
    | .ok rest => .ok (tk ++ rest)

/-- nom's `fold_many0!` over `formatStep`, with fuel: iterate until the step
fails, returning the unconsumed input and the folded result. -/
def foldFormat (f : TimeFacet) (dateO : Option NaiveDate)
    (timeO : Option NaiveTime) (tzSome : Bool) :
    Nat → List Char → List Char × FmtRes
  | 0, input => (input, .ok [])
  | fuel + 1, input =>
    match formatStep f dateO timeO tzSome input with
    | none => (input, .ok [])
    | some (rest, v) =>
      match foldFormat f dateO timeO tzSome fuel rest with
      | (rem, acc) => (rem, resAnd v acc)

/-- `Time::format_datetime_to`: fail when neither date nor time was
supplied, resolve the sub-pattern (the default `get_date_format`,
`get_time_format` and `get_datetime_format` are all the identity), fold the
grammar over it, and fail unless the whole pattern was consumed. -/
def format_datetime_to (f : TimeFacet) (dateO : Option NaiveDate)
    (timeO : Option NaiveTime) (tzSome : Bool) (fmt : List Char) : FmtRes :=
  if dateO.isNone && timeO.isNone then .error ()
  else
    match foldFormat f dateO timeO tzSome (fmt.length + 1) fmt with
    | (rem, r) => if rem = [] then r else .error ()

/-- A successful render as the text written, a failing one as `none`. -/
def excToOption (v : FmtRes) : Option String :=
  match v with
  | .ok tk => some (String.mk tk)
  | .error _ => none

/-- Top-level rendering of a pattern string. -/
def render (f : TimeFacet) (dateO : Option NaiveDate)
    (timeO : Option NaiveTime) (tzSome : Bool) (fmt : String) :
    Option String :=
  excToOption (format_datetime_to f dateO timeO tzSome fmt.data)

-- ------ claim-side vocabulary ----------------------------------------------

/-- The field letters handled by the date grammar, i.e. the union of its
`is_a_s!` sets. -/
def dateLetters : List Char :=
  ['G', 'y', 'Y', 'u', 'q', 'Q', 'M', 'L', 'w', 'd', 'D', 'E', 'e', 'c']

/-- The field letters handled by the time grammar. -/
def timeLetters : List Char :=
  ['a', 'b', 'h', 'H', 'K', 'k', 'm', 's', 'S']

/-- The field letters handled by the zone grammar's parse shape. -/
def zoneLetters : List Char := ['z']

/-- The recognized field-symbol set of the specification (§4.1): the
date/time letters plus the as-yet-unimplemented zone letters. -/
def recognizedLetters : List Char :=
  dateLetters ++ timeLetters ++ ['z', 'Z', 'O', 'v', 'V', 'X', 'x']

/-- The field letters that some enabled grammar branch can consume, given
which inputs were supplied. -/
def allowedLetters (dateO : Option NaiveDate) (timeO : Option NaiveTime)
    (tzSome : Bool) : List Char :=
  (if dateO.isSome then dateLetters else [])
    ++ (if timeO.isSome then timeLetters else [])
    ++ (if tzSome then zoneLetters else [])

/-- The ASCII letters of a pattern that stand at unquoted positions, in
order: a quote toggles the quoted state, and a letter is collected exactly
when it occurs outside quotes.  (An escaped pair `''` toggles twice, hence
leaves the state unchanged, matching the grammar's quoting rules.) -/
def unquotedLettersAux : Bool → List Char → List Char
  | _, [] => []
  | inQ, c :: rest =>
    if c = squote then unquotedLettersAux (!inQ) rest
    else if inQ then unquotedLettersAux true rest
    else (if decide (c ∈ sourceLetters) then [c] else [])
      ++ unquotedLettersAux false rest

/-- The unquoted ASCII letters of a pattern. -/
def unquotedLetters (l : List Char) : List Char := unquotedLettersAux false l

-- ------ basic parser lemmas ------------------------------------------------

theorem mem_takeWhile_pred {p : Char → Bool} {l : List Char} {a : Char}
    (h : a ∈ l.takeWhile p) : p a = true := by
  induction l with
  | nil => simp [List.takeWhile] at h
  | cons x xs ih =>
    rw [List.takeWhile_cons] at h
    by_cases hx : p x = true
    · simp [hx] at h
      rcases h with rfl | h
      · exact hx
      · exact ih h
    · simp [hx] at h

theorem isA_eq_some {S input tk r : List Char}
    (h : isA S input = some (tk, r)) :
    input = tk ++ r ∧ tk ≠ [] ∧ ∀ c ∈ tk, c ∈ S := by
  unfold isA at h
  split at h
  · simp at h
  · rename_i hne
    have h' := Option.some.inj h
    have htk := congrArg Prod.fst h'
    have hr := congrArg Prod.snd h'
    simp only [] at htk hr
    subst htk
    subst hr
    refine ⟨(List.takeWhile_append_dropWhile ..).symm, hne, ?_⟩
    intro c hc
    have hpc := mem_takeWhile_pred hc
    simpa using hpc

theorem isNot_eq_some {S input tk r : List Char}
    (h : isNot S input = some (tk, r)) :
    input = tk ++ r ∧ tk ≠ [] ∧ ∀ c ∈ tk, c ∉ S := by
  unfold isNot at h
  split at h
  · simp at h
  · rename_i hne
    have h' := Option.some.inj h
    have htk := congrArg Prod.fst h'
    have hr := congrArg Prod.snd h'
    simp only [] at htk hr
    subst htk
    subst hr
    refine ⟨(List.takeWhile_append_dropWhile ..).symm, hne, ?_⟩
    intro c hc
    have hpc := mem_takeWhile_pred hc
    simpa using hpc

theorem tag_eq_some {t input r : List Char} (h : tag t input = some r) :
    input = t ++ r := by
  unfold tag at h
  split at h
  · rename_i heq
    have hr := Option.some.inj h
    subst hr
    conv_lhs => rw [← List.take_append_drop t.length input]
    rw [heq]
  · simp at h

theorem takeWhile_replicate_pos {p : Char → Bool} {c : Char} (w : Nat)
    (h : p c = true) :
    (List.replicate w c).takeWhile p = List.replicate w c := by
  induction w with
  | zero => rfl
  | succ n ih => simp [List.replicate_succ, List.takeWhile_cons, h, ih]

theorem dropWhile_replicate_pos {p : Char → Bool} {c : Char} (w : Nat)
    (h : p c = true) : (List.replicate w c).dropWhile p = [] := by
  induction w with
  | zero => rfl
  | succ n ih => simp [List.replicate_succ, List.dropWhile_cons, h, ih]

theorem replicate_ne_nil {c : Char} {w : Nat} (hw : 1 ≤ w) :
    List.replicate w c ≠ [] := by
  intro hnil
  have := congrArg List.length hnil
  simp at this
  omega

theorem isA_replicate_mem {S : List Char} {c : Char} (h : c ∈ S) {w : Nat}
    (hw : 1 ≤ w) :
    isA S (List.replicate w c) = some (List.replicate w c, []) := by
  unfold isA
  rw [takeWhile_replicate_pos w (decide_eq_true h),
    dropWhile_replicate_pos w (decide_eq_true h)]
  simp [replicate_ne_nil hw]

theorem isA_replicate_not_mem {S : List Char} {c : Char} (h : c ∉ S)
    (w : Nat) : isA S (List.replicate w c) = none := by
  cases w with
  | zero => rfl
  | succ n =>
    unfold isA
    simp [List.replicate_succ, List.takeWhile_cons, h]

theorem formatStep_nil (f : TimeFacet) (dateO : Option NaiveDate)
    (timeO : Option NaiveTime) (tzSome : Bool) :
    formatStep f dateO timeO tzSome [] = none := by
  rcases dateO with _ | d <;> rcases timeO with _ | t <;> rcases tzSome <;> rfl

theorem foldFormat_nil (f : TimeFacet) (dateO : Option NaiveDate)
    (timeO : Option NaiveTime) (tzSome : Bool) (fuel : Nat) :
    foldFormat f dateO timeO tzSome fuel [] = ([], .ok []) := by
  cases fuel with
  | zero => rfl
  | succ n => simp [foldFormat, formatStep_nil]

theorem orElse_eq_some {α : Type} {a b : Option α} {x : α}
    (h : (a <|> b) = some x) : a = some x ∨ (a = none ∧ b = some x) := by
  cases a <;> simp_all

-- ------ rendering a single field run ---------------------------------------

/-- A pattern consisting of one maximal run of a time field letter renders
to exactly that branch's outcome (time supplied, date absent). -/
theorem render_time_run (f : TimeFacet) (t : NaiveTime) (w : Nat) (c : Char)
    (v : FmtRes) (hw : 1 ≤ w)
    (h : do_format_time f t (List.replicate w c) = some ([], v)) :
    render f none (some t) false (String.mk (List.replicate w c))
      = excToOption v := by
  have hstep : formatStep f none (some t) false (List.replicate w c)
      = some ([], v) := by
    simp [formatStep, h]
  have hfold : foldFormat f none (some t) false (w + 1)
      (List.replicate w c) = ([], resAnd v (.ok [])) := by
    obtain ⟨n, rfl⟩ : ∃ n, w = n + 1 := ⟨w - 1, by omega⟩
    rw [foldFormat, hstep]
    simp [foldFormat_nil]
  have hlen : (String.mk (List.replicate w c)).data = List.replicate w c :=
    rfl
  unfold render format_datetime_to
  rw [hlen]
  simp only [List.length_replicate]
  rw [hfold]
  cases v <;> simp [resAnd, excToOption]

/-- A pattern consisting of one maximal run of a date field letter renders
to exactly that branch's outcome (date supplied, time absent). -/
theorem render_date_run (f : TimeFacet) (d : NaiveDate) (w : Nat) (c : Char)
    (v : FmtRes) (hw : 1 ≤ w)
    (h : do_format_date f d (List.replicate w c) = some ([], v)) :
    render f (some d) none false (String.mk (List.replicate w c))
      = excToOption v := by
  have hstep : formatStep f (some d) none false (List.replicate w c)
      = some ([], v) := by
    simp [formatStep, h]
  have hfold : foldFormat f (some d) none false (w + 1)
      (List.replicate w c) = ([], resAnd v (.ok [])) := by
    obtain ⟨n, rfl⟩ : ∃ n, w = n + 1 := ⟨w - 1, by omega⟩
    rw [foldFormat, hstep]
    simp [foldFormat_nil]
  have hlen : (String.mk (List.replicate w c)).data = List.replicate w c :=
    rfl
  unfold render format_datetime_to
  rw [hlen]
  simp only [List.length_replicate]
  rw [hfold]
  cases v <;> simp [resAnd, excToOption]

-- ------ time field branch computations -------------------------------------

theorem padInt_ofNat (w n : Nat) : padInt w (Int.ofNat n) = padNum w n := by
  have h0 : (0 : Int) ≤ Int.ofNat n := Int.natCast_nonneg n
  simp [padInt, not_lt.2 h0]

theorem do_format_time_S (f : TimeFacet) (t : NaiveTime) {w : Nat}
    (hw : 1 ≤ w) :
    do_format_time f t (List.replicate w 'S') = some ([],
      f.fmt_number (Int.ofNat (
        if w < 9 then (t.nanosecond % 1000000000) / 10 ^ w
        else if w = 9 then t.nanosecond % 1000000000
        else ((t.nanosecond % 1000000000) * 10 ^ w) % 2 ^ 32)) w) := by
  have h1 := isA_replicate_not_mem (S := ['a']) (c := 'S') (by decide) w
  have h2 := isA_replicate_not_mem (S := ['b']) (c := 'S') (by decide) w
  have h3 := isA_replicate_not_mem (S := ['h']) (c := 'S') (by decide) w
  have h4 := isA_replicate_not_mem (S := ['H']) (c := 'S') (by decide) w
  have h5 := isA_replicate_not_mem (S := ['K']) (c := 'S') (by decide) w
  have h6 := isA_replicate_not_mem (S := ['k']) (c := 'S') (by decide) w
  have h7 := isA_replicate_not_mem (S := ['m']) (c := 'S') (by decide) w
  have h8 := isA_replicate_not_mem (S := ['s']) (c := 'S') (by decide) w
  have h9 := isA_replicate_mem (S := ['S']) (c := 'S') (by decide) hw
  simp [do_format_time, timeBranches, fieldAlts, h1, h2, h3, h4, h5, h6, h7,
    h8, h9]

theorem do_format_time_s (f : TimeFacet) (t : NaiveTime) {w : Nat}
    (hw : 1 ≤ w) :
    do_format_time f t (List.replicate w 's') = some ([],
      f.fmt_number (Int.ofNat (t.second +
        (if 1000000000 ≤ t.nanosecond then 1 else 0))) w) := by
  have h1 := isA_replicate_not_mem (S := ['a']) (c := 's') (by decide) w
  have h2 := isA_replicate_not_mem (S := ['b']) (c := 's') (by decide) w
  have h3 := isA_replicate_not_mem (S := ['h']) (c := 's') (by decide) w
  have h4 := isA_replicate_not_mem (S := ['H']) (c := 's') (by decide) w
  have h5 := isA_replicate_not_mem (S := ['K']) (c := 's') (by decide) w
  have h6 := isA_replicate_not_mem (S := ['k']) (c := 's') (by decide) w
  have h7 := isA_replicate_not_mem (S := ['m']) (c := 's') (by decide) w
  have h8 := isA_replicate_mem (S := ['s']) (c := 's') (by decide) hw
  simp [do_format_time, timeBranches, fieldAlts, h1, h2, h3, h4, h5, h6, h7,
    h8]

theorem do_format_time_h (f : TimeFacet) (t : NaiveTime) {w : Nat}
    (hw : 1 ≤ w) :
    do_format_time f t (List.replicate w 'h') = some ([],
      f.fmt_number (Int.ofNat (t.hour12).2) w) := by
  have h1 := isA_replicate_not_mem (S := ['a']) (c := 'h') (by decide) w
  have h2 := isA_replicate_not_mem (S := ['b']) (c := 'h') (by decide) w
  have h3 := isA_replicate_mem (S := ['h']) (c := 'h') (by decide) hw
  simp [do_format_time, timeBranches, fieldAlts, h1, h2, h3]

theorem do_format_time_hh (f : TimeFacet) (t : NaiveTime) {w : Nat}
    (hw : 1 ≤ w) :
    do_format_time f t (List.replicate w 'H') = some ([],
      f.fmt_number (Int.ofNat t.hour) w) := by
  have h1 := isA_replicate_not_mem (S := ['a']) (c := 'H') (by decide) w
  have h2 := isA_replicate_not_mem (S := ['b']) (c := 'H') (by decide) w
  have h3 := isA_replicate_not_mem (S := ['h']) (c := 'H') (by decide) w
  have h4 := isA_replicate_mem (S := ['H']) (c := 'H') (by decide) hw
  simp [do_format_time, timeBranches, fieldAlts, h1, h2, h3, h4]

theorem do_format_time_kk (f : TimeFacet) (t : NaiveTime) {w : Nat}
    (hw : 1 ≤ w) :
    do_format_time f t (List.replicate w 'K') = some ([],
      f.fmt_number (Int.ofNat (t.hour % 12)) w) := by
  have h1 := isA_replicate_not_mem (S := ['a']) (c := 'K') (by decide) w
  have h2 := isA_replicate_not_mem (S := ['b']) (c := 'K') (by decide) w
  have h3 := isA_replicate_not_mem (S := ['h']) (c := 'K') (by decide) w
  have h4 := isA_replicate_not_mem (S := ['H']) (c := 'K') (by decide) w
  have h5 := isA_replicate_mem (S := ['K']) (c := 'K') (by decide) hw
  simp [do_format_time, timeBranches, fieldAlts, h1, h2, h3, h4, h5]

theorem do_format_time_k (f : TimeFacet) (t : NaiveTime) {w : Nat}
    (hw : 1 ≤ w) :
    do_format_time f t (List.replicate w 'k') = some ([],
      f.fmt_number (Int.ofNat (if t.hour = 0 then 24 else t.hour)) w) := by
  have h1 := isA_replicate_not_mem (S := ['a']) (c := 'k') (by decide) w
  have h2 := isA_replicate_not_mem (S := ['b']) (c := 'k') (by decide) w
  have h3 := isA_replicate_not_mem (S := ['h']) (c := 'k') (by decide) w
  have h4 := isA_replicate_not_mem (S := ['H']) (c := 'k') (by decide) w
  have h5 := isA_replicate_not_mem (S := ['K']) (c := 'k') (by decide) w
  have h6 := isA_replicate_mem (S := ['k']) (c := 'k') (by decide) hw
  simp [do_format_time, timeBranches, fieldAlts, h1, h2, h3, h4, h5, h6]

-- ------ claims C1, C3, C7 --------------------------------------------------

/-- C1, counterexample: the claim asserts that nanosecond value 123456789
with pattern `SSS` renders "123"; the code instead divides the nanosecond
remainder by `10^w` (not `10^(9-w)`) and renders "123456". -/
theorem c1_fractional_seconds_counterexample :
    render defaultFacet none (some ⟨0, 0, 0, 123456789⟩) false
      (String.mk (List.replicate 3 'S')) ≠ some ("123")
    ∧ render defaultFacet none (some ⟨0, 0, 0, 123456789⟩) false
      (String.mk (List.replicate 3 'S')) = some ("123456") := by
  constructor
  · decide
  · decide

/-- C1, amended: for repeat count `w` with `1 ≤ w ≤ 9`, an `S` field run
renders, zero-padded to `w` digits, the nanosecond remainder (nanosecond
modulo 1e9, stripping the leap-second carry) divided by `10^w` — i.e. with
its `w` lowest decimal digits removed — when `w < 9`, and the remainder
unchanged when `w = 9`.  (For `w > 9` the source multiplies by
`10u32.pow(w)`, which overflows `u32` for every such `w`, rather than
padding zeros; that case is excluded here.) -/
theorem c1_fractional_seconds_amended (t : NaiveTime) (w : Nat) (hw : 1 ≤ w)
    (hw9 : w ≤ 9) :
    render defaultFacet none (some t) false
      (String.mk (List.replicate w 'S'))
      = some (String.mk (padNum w
        (if w < 9 then (t.nanosecond % 1000000000) / 10 ^ w
         else t.nanosecond % 1000000000))) := by
  rw [render_time_run defaultFacet t w 'S' _ hw
    (do_format_time_S defaultFacet t hw)]
  by_cases hlt : w < 9
  · rw [if_pos hlt, if_pos hlt]
    simp only [defaultFacet, defaultFmtNumber, excToOption, padInt_ofNat]
  · have h9 : w = 9 := by omega
    subst h9
    have h1 : ¬ (9 < 9) := by omega
    rw [if_neg h1, if_pos rfl, if_neg h1]
    simp only [defaultFacet, defaultFmtNumber, excToOption, padInt_ofNat]

/-- C1, witness for the amended statement at `w = 3`, nanosecond 123456789. -/
theorem c1_fractional_seconds_witness :
    1 ≤ 3 ∧ 3 ≤ 9
    ∧ render defaultFacet none (some ⟨0, 0, 0, 123456789⟩) false
        (String.mk (List.replicate 3 'S')) = some ("123456") := by
  refine ⟨by decide, by decide, ?_⟩
  rw [c1_fractional_seconds_amended ⟨0, 0, 0, 123456789⟩ 3 (by decide)
    (by decide)]
  decide

/-- C3: an `s` field run of repeat count `w` adds the leap-second carry —
for a time with seconds 59 and nanosecond ≥ 1e9, it renders 60 zero-padded
to `w`; for nanosecond < 1e9 it renders the stored second unchanged
(zero-padded to `w`). -/
theorem c3_leap_second_carry (t : NaiveTime) (w : Nat) (hw : 1 ≤ w) :
    (t.second = 59 → 1000000000 ≤ t.nanosecond →
      render defaultFacet none (some t) false
        (String.mk (List.replicate w 's')) = some (String.mk (padNum w 60)))
    ∧ (t.nanosecond < 1000000000 →
      render defaultFacet none (some t) false
        (String.mk (List.replicate w 's'))
        = some (String.mk (padNum w t.second))) := by
  constructor
  · intro h59 hns
    rw [render_time_run defaultFacet t w 's' _ hw
      (do_format_time_s defaultFacet t hw)]
    rw [if_pos hns, h59]
    simp only [defaultFacet, defaultFmtNumber, excToOption, padInt_ofNat]
  · intro hns
    rw [render_time_run defaultFacet t w 's' _ hw
      (do_format_time_s defaultFacet t hw)]
    have hlt : ¬ (1000000000 ≤ t.nanosecond) := by omega
    rw [if_neg hlt]
    simp only [defaultFacet, defaultFmtNumber, excToOption, padInt_ofNat,
      Nat.add_zero]

/-- C3, witness: seconds 59 with a leap-second nanosecond renders "60";
seconds 4 with nanosecond 0 renders "04". -/
theorem c3_leap_second_carry_witness :
    1 ≤ 2
    ∧ render defaultFacet none (some ⟨23, 59, 59, 1000000000⟩) false
        (String.mk (List.replicate 2 's')) = some ("60")
    ∧ render defaultFacet none (some ⟨2, 3, 4, 0⟩) false
        (String.mk (List.replicate 2 's')) = some ("04") := by
  refine ⟨by decide, ?_, ?_⟩
  · rw [(c3_leap_second_carry ⟨23, 59, 59, 1000000000⟩ 2 (by decide)).1
      (by decide) (by decide)]
    decide
  · rw [(c3_leap_second_carry ⟨2, 3, 4, 0⟩ 2 (by decide)).2 (by decide)]
    decide

/-- C7: for hour `h ≤ 23` and repeat count `w`, the hour field runs render,
zero-padded to `w` digits: `h` the 1–12-cycle value, `H` the hour itself,
`K` the hour modulo 12, and `k` 24 when the hour is 0 and the hour
otherwise. -/
theorem c7_hour_cycles (t : NaiveTime) (w : Nat) (hw : 1 ≤ w)
    (_hh : t.hour ≤ 23) :
    render defaultFacet none (some t) false (String.mk (List.replicate w 'h'))
      = some (String.mk (padNum w
          (if t.hour % 12 = 0 then 12 else t.hour % 12)))
    ∧ render defaultFacet none (some t) false
        (String.mk (List.replicate w 'H'))
      = some (String.mk (padNum w t.hour))
    ∧ render defaultFacet none (some t) false
        (String.mk (List.replicate w 'K'))
      = some (String.mk (padNum w (t.hour % 12)))
    ∧ render defaultFacet none (some t) false
        (String.mk (List.replicate w 'k'))
      = some (String.mk (padNum w (if t.hour = 0 then 24 else t.hour))) := by
  refine ⟨?_, ?_, ?_, ?_⟩
  · rw [render_time_run defaultFacet t w 'h' _ hw
      (do_format_time_h defaultFacet t hw)]
    simp only [defaultFacet, defaultFmtNumber, excToOption, padInt_ofNat,
      NaiveTime.hour12]
  · rw [render_time_run defaultFacet t w 'H' _ hw
      (do_format_time_hh defaultFacet t hw)]
    simp only [defaultFacet, defaultFmtNumber, excToOption, padInt_ofNat]
  · rw [render_time_run defaultFacet t w 'K' _ hw
      (do_format_time_kk defaultFacet t hw)]
    simp only [defaultFacet, defaultFmtNumber, excToOption, padInt_ofNat]
  · rw [render_time_run defaultFacet t w 'k' _ hw
      (do_format_time_k defaultFacet t hw)]
    simp only [defaultFacet, defaultFmtNumber, excToOption, padInt_ofNat]

/-- C7, witness at hour 0, width 2: `hh` renders "12", `HH` renders "00",
`KK` renders "00", `kk` renders "24". -/
theorem c7_hour_cycles_witness :
    1 ≤ 2 ∧ (⟨0, 5, 6, 0⟩ : NaiveTime).hour ≤ 23
    ∧ render defaultFacet none (some ⟨0, 5, 6, 0⟩) false
        (String.mk (List.replicate 2 'h')) = some ("12")
    ∧ render defaultFacet none (some ⟨0, 5, 6, 0⟩) false
        (String.mk (List.replicate 2 'k')) = some ("24") := by
  refine ⟨by decide, by decide, ?_, ?_⟩
  · rw [(c7_hour_cycles ⟨0, 5, 6, 0⟩ 2 (by decide) (by decide)).1]
    decide
  · rw [(c7_hour_cycles ⟨0, 5, 6, 0⟩ 2 (by decide) (by decide)).2.2.2]
    decide

-- ------ date field branch computations -------------------------------------

theorem do_format_date_y (f : TimeFacet) (d : NaiveDate) {w : Nat}
    (hw : 1 ≤ w) :
    do_format_date f d (List.replicate w 'y') = some ([],
      f.fmt_number (Int.ofNat
        (if w = 2 then (d.year_ce).2 % 100 else (d.year_ce).2)) w) := by
  have h1 := isA_replicate_not_mem (S := ['G']) (c := 'y') (by decide) w
  have h2 := isA_replicate_mem (S := ['y']) (c := 'y') (by decide) hw
  simp [do_format_date, dateBranches, fieldAlts, h1, h2]

theorem do_format_date_yy (f : TimeFacet) (d : NaiveDate) {w : Nat}
    (hw : 1 ≤ w) :
    do_format_date f d (List.replicate w 'Y') = some ([],
      f.fmt_number
        (if w = 2 then Int.tmod d.isoWeekYear 100 else d.isoWeekYear) w) := by
  have h1 := isA_replicate_not_mem (S := ['G']) (c := 'Y') (by decide) w
  have h2 := isA_replicate_not_mem (S := ['y']) (c := 'Y') (by decide) w
  have h3 := isA_replicate_mem (S := ['Y']) (c := 'Y') (by decide) hw
  simp [do_format_date, dateBranches, fieldAlts, h1, h2, h3]

-- ------ claims C6, C2, C9 --------------------------------------------------

/-- C6: a `y` (calendar year, as era-relative `year_ce`) or `Y` (ISO-week
year) field with repeat count exactly 2 renders the year value modulo 100
(the source's `%`, i.e. the truncated remainder for the signed ISO-week
year), and any other repeat count renders the full year zero-padded to the
repeat count.  The concrete examples (year 2017, `yy` = "17",
`yyyy` = "2017") are checked in the witness. -/
theorem c6_year_truncation (d : NaiveDate) (w : Nat) (hw : 1 ≤ w) :
    render defaultFacet (some d) none false (String.mk (List.replicate w 'y'))
      = some (String.mk (padNum w
        (if w = 2 then (d.year_ce).2 % 100 else (d.year_ce).2)))
    ∧ render defaultFacet (some d) none false
        (String.mk (List.replicate w 'Y'))
      = some (String.mk (padInt w
        (if w = 2 then Int.tmod d.isoWeekYear 100 else d.isoWeekYear))) := by
  constructor
  · rw [render_date_run defaultFacet d w 'y' _ hw
      (do_format_date_y defaultFacet d hw)]
    simp only [defaultFacet, defaultFmtNumber, excToOption, padInt_ofNat]
  · rw [render_date_run defaultFacet d w 'Y' _ hw
      (do_format_date_yy defaultFacet d hw)]
    simp only [defaultFacet, defaultFmtNumber, excToOption]

/-- C6, witness: year 2017 with `yy` renders "17" and with `yyyy` renders
"2017". -/
theorem c6_year_truncation_witness :
    1 ≤ 2 ∧ 1 ≤ 4
    ∧ render defaultFacet (some ⟨2017, 8, 9, 221, 32, 2017, Weekday.Wed⟩)
        none false (String.mk (List.replicate 2 'y')) = some ("17")
    ∧ render defaultFacet (some ⟨2017, 8, 9, 221, 32, 2017, Weekday.Wed⟩)
        none false (String.mk (List.replicate 4 'y')) = some ("2017") := by
  refine ⟨by decide, by decide, ?_, ?_⟩
  · rw [(c6_year_truncation ⟨2017, 8, 9, 221, 32, 2017, Weekday.Wed⟩ 2
      (by decide)).1]
    decide
  · rw [(c6_year_truncation ⟨2017, 8, 9, 221, 32, 2017, Weekday.Wed⟩ 4
      (by decide)).1]
    decide

/-- C2: the claim asserts that an unquoted `''` pair renders as one single
quote; the code's second `do_format_other` alternative writes back the
matched pair verbatim (`out.write_str(s)` with `s = "''"`), so the pattern
consisting of `''` renders as two quote characters — while the other half
of the quoting rules (the `''` collapse inside a `'...'` run) does hold.
The repository states it implements CLDR patterns, whose quoting rule is
unambiguous here, and the in-quote branch next to it performs the collapse,
so this is recorded as a code bug at the failing input pattern `''`. -/
theorem c2_unquoted_quote_pair :
    render defaultFacet none (some ⟨2, 3, 4, 0⟩) false
      (String.mk [squote, squote]) = some (String.mk [squote, squote])
    ∧ String.mk [squote, squote] ≠ String.mk [squote]
    ∧ render defaultFacet none (some ⟨2, 3, 4, 0⟩) false
      (String.mk (squote :: 'a' :: squote :: squote :: 'b' :: [squote]))
      = some (String.mk ['a', squote, 'b']) := by
  refine ⟨by decide, by decide, by decide⟩

/-- C9: rendering date 2017-08-09 (a Wednesday, ordinal day 221, ISO week
32 of ISO year 2017) with time 02:03:04 and pattern
`yyyy-MM-dd'T'HH:mm:ss` under the default facet writes exactly
"2017-08-09T02:03:04", matching the repository's own test. -/
theorem c9_end_to_end :
    render defaultFacet (some ⟨2017, 8, 9, 221, 32, 2017, Weekday.Wed⟩)
      (some ⟨2, 3, 4, 0⟩) false
      (String.mk ("yyyy-MM-dd".data ++ squote :: 'T' :: squote
        :: "HH:mm:ss".data))
      = some ("2017-08-09T02:03:04") := by
  decide

-- ------ claims C10, C8 -----------------------------------------------------

/-- The CLDR width selected by a `b` run of length 1–5 (1–3 abbreviated,
4 wide, 5 narrow), as the claim states it. -/
def bWidth (w : Nat) : FormatWidth :=
  if w ≤ 3 then FormatWidth.FormatAbbr
  else if w = 4 then FormatWidth.FormatWide
  else FormatWidth.FormatNarrow

/-- C10: for a `b` field run (any valid width 1–5), a time at exact
midnight (hour, minute, second all zero — any nanosecond) dispatches
`DayPeriod.Midnight` to the period facet and exact noon dispatches
`DayPeriod.Noon`; the default period facet collapses Midnight to "AM" and
Noon to "PM", so default-facet output shows "AM"/"PM" and the
midnight/noon distinction is invisible there. -/
theorem c10_day_period_midnight_noon (ns w : Nat)
    (g : FormatWidth → Calendar → DayPeriod → Except Unit (List Char))
    (h1 : 1 ≤ w) (h5 : w ≤ 5) :
    (render {defaultFacet with fmt_period := g} none (some ⟨0, 0, 0, ns⟩)
        false (String.mk (List.replicate w 'b'))
      = excToOption (g (bWidth w) Calendar.Gregorian DayPeriod.Midnight))
    ∧ (render {defaultFacet with fmt_period := g} none (some ⟨12, 0, 0, ns⟩)
        false (String.mk (List.replicate w 'b'))
      = excToOption (g (bWidth w) Calendar.Gregorian DayPeriod.Noon))
    ∧ (render defaultFacet none (some ⟨0, 0, 0, ns⟩) false
        (String.mk (List.replicate w 'b')) = some ("AM"))
    ∧ (render defaultFacet none (some ⟨12, 0, 0, ns⟩) false
        (String.mk (List.replicate w 'b')) = some ("PM")) := by
  interval_cases w
  · exact ⟨render_time_run {defaultFacet with fmt_period := g} ⟨0, 0, 0, ns⟩
        1 'b' (g (bWidth 1) Calendar.Gregorian DayPeriod.Midnight)
        (by decide) rfl,
      render_time_run {defaultFacet with fmt_period := g} ⟨12, 0, 0, ns⟩
        1 'b' (g (bWidth 1) Calendar.Gregorian DayPeriod.Noon)
        (by decide) rfl,
      (render_time_run defaultFacet ⟨0, 0, 0, ns⟩ 1 'b'
        (Except.ok (("AM").data)) (by decide) rfl).trans rfl,
      (render_time_run defaultFacet ⟨12, 0, 0, ns⟩ 1 'b'
        (Except.ok (("PM").data)) (by decide) rfl).trans rfl⟩
  · exact ⟨render_time_run {defaultFacet with fmt_period := g} ⟨0, 0, 0, ns⟩
        2 'b' (g (bWidth 2) Calendar.Gregorian DayPeriod.Midnight)
        (by decide) rfl,
      render_time_run {defaultFacet with fmt_period := g} ⟨12, 0, 0, ns⟩
        2 'b' (g (bWidth 2) Calendar.Gregorian DayPeriod.Noon)
        (by decide) rfl,
      (render_time_run defaultFacet ⟨0, 0, 0, ns⟩ 2 'b'
        (Except.ok (("AM").data)) (by decide) rfl).trans rfl,
      (render_time_run defaultFacet ⟨12, 0, 0, ns⟩ 2 'b'
        (Except.ok (("PM").data)) (by decide) rfl).trans rfl⟩
  · exact ⟨render_time_run {defaultFacet with fmt_period := g} ⟨0, 0, 0, ns⟩
        3 'b' (g (bWidth 3) Calendar.Gregorian DayPeriod.Midnight)
        (by decide) rfl,
      render_time_run {defaultFacet with fmt_period := g} ⟨12, 0, 0, ns⟩
        3 'b' (g (bWidth 3) Calendar.Gregorian DayPeriod.Noon)
        (by decide) rfl,
      (render_time_run defaultFacet ⟨0, 0, 0, ns⟩ 3 'b'
        (Except.ok (("AM").data)) (by decide) rfl).trans rfl,
      (render_time_run defaultFacet ⟨12, 0, 0, ns⟩ 3 'b'
        (Except.ok (("PM").data)) (by decide) rfl).trans rfl⟩
  · exact ⟨render_time_run {defaultFacet with fmt_period := g} ⟨0, 0, 0, ns⟩
        4 'b' (g (bWidth 4) Calendar.Gregorian DayPeriod.Midnight)
        (by decide) rfl,
      render_time_run {defaultFacet with fmt_period := g} ⟨12, 0, 0, ns⟩
        4 'b' (g (bWidth 4) Calendar.Gregorian DayPeriod.Noon)
        (by decide) rfl,
      (render_time_run defaultFacet ⟨0, 0, 0, ns⟩ 4 'b'
        (Except.ok (("AM").data)) (by decide) rfl).trans rfl,
      (render_time_run defaultFacet ⟨12, 0, 0, ns⟩ 4 'b'
        (Except.ok (("PM").data)) (by decide) rfl).trans rfl⟩
  · exact ⟨render_time_run {defaultFacet with fmt_period := g} ⟨0, 0, 0, ns⟩
        5 'b' (g (bWidth 5) Calendar.Gregorian DayPeriod.Midnight)
        (by decide) rfl,
      render_time_run {defaultFacet with fmt_period := g} ⟨12, 0, 0, ns⟩
        5 'b' (g (bWidth 5) Calendar.Gregorian DayPeriod.Noon)
        (by decide) rfl,
      (render_time_run defaultFacet ⟨0, 0, 0, ns⟩ 5 'b'
        (Except.ok (("AM").data)) (by decide) rfl).trans rfl,
      (render_time_run defaultFacet ⟨12, 0, 0, ns⟩ 5 'b'
        (Except.ok (("PM").data)) (by decide) rfl).trans rfl⟩

/-- C10, witness at width 1, nanosecond 0: midnight renders "AM" and noon
renders "PM" under the default facet. -/
theorem c10_day_period_witness :
    1 ≤ 1 ∧ 1 ≤ 5
    ∧ render defaultFacet none (some ⟨0, 0, 0, 0⟩) false
        (String.mk (List.replicate 1 'b')) = some ("AM")
    ∧ render defaultFacet none (some ⟨12, 0, 0, 0⟩) false
        (String.mk (List.replicate 1 'b')) = some ("PM") := by
  refine ⟨by decide, by decide, ?_, ?_⟩
  · exact (c10_day_period_midnight_noon 0 1 defaultFmtPeriod (by decide)
      (by decide)).2.2.1
  · exact (c10_day_period_midnight_noon 0 1 defaultFmtPeriod (by decide)
      (by decide)).2.2.2

/-- C8: `e`/`c` runs of length 1–2 render, zero-padded, the 1-based weekday
index counted from the facet's configured week start, computed as
`(weekday_from_sunday + 7 - week_start_from_sunday) % 7 + 1`; under the
default Monday week start, a Monday renders "1" and a Sunday "7";
`E`/`e`/`c` at larger repeat counts dispatch a named weekday to the day
facet with width mapping 1–3 abbreviated, 4 wide, 5 narrow, 6 short
(format forms for `E`/`e`, stand-alone forms for `c`). -/
theorem c8_weekday_fields (d : NaiveDate) (ws : Weekday)
    (g : FormatWidth → Calendar → Weekday → Except Unit (List Char)) :
    (∀ w, w = 1 ∨ w = 2 →
      (render {defaultFacet with get_week_start := ws} (some d) none false
          (String.mk (List.replicate w 'e'))
        = some (String.mk (padNum w ((d.weekday.num_days_from_sunday + 7
            - ws.num_days_from_sunday) % 7 + 1))))
      ∧ (render {defaultFacet with get_week_start := ws} (some d) none false
          (String.mk (List.replicate w 'c'))
        = some (String.mk (padNum w ((d.weekday.num_days_from_sunday + 7
            - ws.num_days_from_sunday) % 7 + 1)))))
    ∧ (d.weekday = Weekday.Mon →
      render defaultFacet (some d) none false
        (String.mk (List.replicate 1 'e')) = some ("1"))
    ∧ (d.weekday = Weekday.Sun →
      render defaultFacet (some d) none false
        (String.mk (List.replicate 1 'e')) = some ("7"))
    ∧ (∀ w, 1 ≤ w → w ≤ 3 →
      render {defaultFacet with fmt_day := g} (some d) none false
        (String.mk (List.replicate w 'E'))
      = excToOption (g FormatWidth.FormatAbbr Calendar.Gregorian d.weekday))
    ∧ (render {defaultFacet with fmt_day := g} (some d) none false
        (String.mk (List.replicate 4 'E'))
      = excToOption (g FormatWidth.FormatWide Calendar.Gregorian d.weekday))
    ∧ (render {defaultFacet with fmt_day := g} (some d) none false
        (String.mk (List.replicate 5 'E'))
      = excToOption (g FormatWidth.FormatNarrow Calendar.Gregorian d.weekday))
    ∧ (render {defaultFacet with fmt_day := g} (some d) none false
        (String.mk (List.replicate 6 'E'))
      = excToOption (g FormatWidth.FormatShort Calendar.Gregorian d.weekday))
    ∧ (render {defaultFacet with fmt_day := g} (some d) none false
        (String.mk (List.replicate 3 'e'))
      = excToOption (g FormatWidth.FormatAbbr Calendar.Gregorian d.weekday))
    ∧ (render {defaultFacet with fmt_day := g} (some d) none false
        (String.mk (List.replicate 4 'e'))
      = excToOption (g FormatWidth.FormatWide Calendar.Gregorian d.weekday))
    ∧ (render {defaultFacet with fmt_day := g} (some d) none false
        (String.mk (List.replicate 5 'e'))
      = excToOption (g FormatWidth.FormatNarrow Calendar.Gregorian d.weekday))
    ∧ (render {defaultFacet with fmt_day := g} (some d) none false
        (String.mk (List.replicate 6 'e'))
      = excToOption (g FormatWidth.FormatShort Calendar.Gregorian d.weekday))
    ∧ (render {defaultFacet with fmt_day := g} (some d) none false
        (String.mk (List.replicate 3 'c'))
      = excToOption
          (g FormatWidth.StandAloneAbbr Calendar.Gregorian d.weekday))
    ∧ (render {defaultFacet with fmt_day := g} (some d) none false
        (String.mk (List.replicate 4 'c'))
      = excToOption
          (g FormatWidth.StandAloneWide Calendar.Gregorian d.weekday))
    ∧ (render {defaultFacet with fmt_day := g} (some d) none false
        (String.mk (List.replicate 5 'c'))
      = excToOption
          (g FormatWidth.StandAloneNarrow Calendar.Gregorian d.weekday))
    ∧ (render {defaultFacet with fmt_day := g} (some d) none false
        (String.mk (List.replicate 6 'c'))
      = excToOption
          (g FormatWidth.StandAloneShort Calendar.Gregorian d.weekday)) := by
  refine ⟨?_, ?_, ?_, ?_, ?_, ?_, ?_, ?_, ?_, ?_, ?_, ?_, ?_, ?_, ?_⟩
  · intro w hw
    rcases hw with rfl | rfl <;> constructor
    · rw [render_date_run {defaultFacet with get_week_start := ws} d 1 'e'
        (defaultFmtNumber (Int.ofNat ((d.weekday.num_days_from_sunday + 7
          - ws.num_days_from_sunday) % 7 + 1)) 1) (by decide) rfl]
      simp only [defaultFmtNumber, excToOption, padInt_ofNat]
    · rw [render_date_run {defaultFacet with get_week_start := ws} d 1 'c'
        (defaultFmtNumber (Int.ofNat ((d.weekday.num_days_from_sunday + 7
          - ws.num_days_from_sunday) % 7 + 1)) 1) (by decide) rfl]
      simp only [defaultFmtNumber, excToOption, padInt_ofNat]
    · rw [render_date_run {defaultFacet with get_week_start := ws} d 2 'e'
        (defaultFmtNumber (Int.ofNat ((d.weekday.num_days_from_sunday + 7
          - ws.num_days_from_sunday) % 7 + 1)) 2) (by decide) rfl]
      simp only [defaultFmtNumber, excToOption, padInt_ofNat]
    · rw [render_date_run {defaultFacet with get_week_start := ws} d 2 'c'
        (defaultFmtNumber (Int.ofNat ((d.weekday.num_days_from_sunday + 7
          - ws.num_days_from_sunday) % 7 + 1)) 2) (by decide) rfl]
      simp only [defaultFmtNumber, excToOption, padInt_ofNat]
  · intro hmon
    rw [render_date_run defaultFacet d 1 'e'
      (defaultFmtNumber (Int.ofNat ((d.weekday.num_days_from_sunday + 7
        - Weekday.Mon.num_days_from_sunday) % 7 + 1)) 1) (by decide) rfl,
      hmon]
    decide
  · intro hsun
    rw [render_date_run defaultFacet d 1 'e'
      (defaultFmtNumber (Int.ofNat ((d.weekday.num_days_from_sunday + 7
        - Weekday.Mon.num_days_from_sunday) % 7 + 1)) 1) (by decide) rfl,
      hsun]
    decide
  · intro w h1 h3
    interval_cases w
    · exact render_date_run {defaultFacet with fmt_day := g} d 1 'E'
        (g FormatWidth.FormatAbbr Calendar.Gregorian d.weekday)
        (by decide) rfl
    · exact render_date_run {defaultFacet with fmt_day := g} d 2 'E'
        (g FormatWidth.FormatAbbr Calendar.Gregorian d.weekday)
        (by decide) rfl
    · exact render_date_run {defaultFacet with fmt_day := g} d 3 'E'
        (g FormatWidth.FormatAbbr Calendar.Gregorian d.weekday)
        (by decide) rfl
  · exact render_date_run {defaultFacet with fmt_day := g} d 4 'E'
      (g FormatWidth.FormatWide Calendar.Gregorian d.weekday) (by decide) rfl
  · exact render_date_run {defaultFacet with fmt_day := g} d 5 'E'
      (g FormatWidth.FormatNarrow Calendar.Gregorian d.weekday) (by decide) rfl
  · exact render_date_run {defaultFacet with fmt_day := g} d 6 'E'
      (g FormatWidth.FormatShort Calendar.Gregorian d.weekday) (by decide) rfl
  · exact render_date_run {defaultFacet with fmt_day := g} d 3 'e'
      (g FormatWidth.FormatAbbr Calendar.Gregorian d.weekday) (by decide) rfl
  · exact render_date_run {defaultFacet with fmt_day := g} d 4 'e'
      (g FormatWidth.FormatWide Calendar.Gregorian d.weekday) (by decide) rfl
  · exact render_date_run {defaultFacet with fmt_day := g} d 5 'e'
      (g FormatWidth.FormatNarrow Calendar.Gregorian d.weekday) (by decide) rfl
  · exact render_date_run {defaultFacet with fmt_day := g} d 6 'e'
      (g FormatWidth.FormatShort Calendar.Gregorian d.weekday) (by decide) rfl
  · exact render_date_run {defaultFacet with fmt_day := g} d 3 'c'
      (g FormatWidth.StandAloneAbbr Calendar.Gregorian d.weekday) (by decide) rfl
  · exact render_date_run {defaultFacet with fmt_day := g} d 4 'c'
      (g FormatWidth.StandAloneWide Calendar.Gregorian d.weekday) (by decide) rfl
  · exact render_date_run {defaultFacet with fmt_day := g} d 5 'c'
      (g FormatWidth.StandAloneNarrow Calendar.Gregorian d.weekday) (by decide) rfl
  · exact render_date_run {defaultFacet with fmt_day := g} d 6 'c'
      (g FormatWidth.StandAloneShort Calendar.Gregorian d.weekday) (by decide) rfl

/-- C8, witness: a Wednesday with Monday week start renders `e` as "3"; a
Monday renders "1"; a Sunday renders "7"; `EEEE` dispatches the wide
format form. -/
theorem c8_weekday_fields_witness :
    ((1 : Nat) = 1 ∨ (1 : Nat) = 2)
    ∧ render defaultFacet
        (some ⟨2017, 8, 7, 219, 32, 2017, Weekday.Mon⟩) none false
        (String.mk (List.replicate 1 'e')) = some ("1")
    ∧ render defaultFacet
        (some ⟨2017, 8, 13, 225, 32, 2017, Weekday.Sun⟩) none false
        (String.mk (List.replicate 1 'e')) = some ("7")
    ∧ render {defaultFacet with fmt_day := defaultFmtDay}
        (some ⟨2017, 8, 9, 221, 32, 2017, Weekday.Wed⟩) none false
        (String.mk (List.replicate 4 'E')) = some ("Wednesday") := by
  refine ⟨by decide, ?_, ?_, ?_⟩
  · exact (c8_weekday_fields ⟨2017, 8, 7, 219, 32, 2017, Weekday.Mon⟩
      Weekday.Mon defaultFmtDay).2.1 rfl
  · exact (c8_weekday_fields ⟨2017, 8, 13, 225, 32, 2017, Weekday.Sun⟩
      Weekday.Mon defaultFmtDay).2.2.1 rfl
  · exact ((c8_weekday_fields ⟨2017, 8, 9, 221, 32, 2017, Weekday.Wed⟩
      Weekday.Mon defaultFmtDay).2.2.2.2.1).trans (by decide)

-- ------ unquoted-letter scanner lemmas -------------------------------------

theorem unquotedLettersAux_append_no_quote {t : List Char} (rest : List Char)
    (h : ∀ c ∈ t, c ≠ squote) :
    unquotedLettersAux false (t ++ rest)
      = (t.filter (fun c => decide (c ∈ sourceLetters)))
        ++ unquotedLettersAux false rest := by
  induction t with
  | nil => simp
  | cons a t ih =>
    have ha : a ≠ squote := h a (by simp)
    have ht : ∀ c ∈ t, c ≠ squote := fun c hc => h c (by simp [hc])
    by_cases hm : a ∈ sourceLetters
    · simp [unquotedLettersAux, ha, hm, ih ht, List.filter_cons]
    · simp [unquotedLettersAux, ha, hm, ih ht, List.filter_cons]

theorem unquotedLettersAux_inquote_append {t : List Char} (rest : List Char)
    (h : ∀ c ∈ t, c ≠ squote) :
    unquotedLettersAux true (t ++ rest) = unquotedLettersAux true rest := by
  induction t with
  | nil => simp
  | cons a t ih =>
    have ha : a ≠ squote := h a (by simp)
    have ht : ∀ c ∈ t, c ≠ squote := fun c hc => h c (by simp [hc])
    simp [unquotedLettersAux, ha, ih ht]

theorem unquotedLettersAux_squote (inQ : Bool) (rest : List Char) :
    unquotedLettersAux inQ (squote :: rest)
      = unquotedLettersAux (!inQ) rest := by
  simp [unquotedLettersAux]

theorem unquotedLettersAux_pair (inQ : Bool) (rest : List Char) :
    unquotedLettersAux inQ (squote :: squote :: rest)
      = unquotedLettersAux inQ rest := by
  simp [unquotedLettersAux]

/-- Scanning skips the whole body of a quoted run: each body piece is an
escaped pair or a quote-free run, and both leave the in-quote state and the
collected letters unchanged. -/
theorem unquotedLettersAux_flatten_pieces (ps : List (List Char))
    (rest : List Char)
    (h : ∀ p ∈ ps, p = [squote, squote] ∨ (∀ c ∈ p, c ≠ squote)) :
    unquotedLettersAux true (ps.flatten ++ rest)
      = unquotedLettersAux true rest := by
  induction ps with
  | nil => simp
  | cons p ps ih =>
    have hp := h p (by simp)
    have hps : ∀ q ∈ ps, q = [squote, squote] ∨ (∀ c ∈ q, c ≠ squote) :=
      fun q hq => h q (by simp [hq])
    rw [List.flatten_cons, List.append_assoc]
    rcases hp with rfl | hnq
    · rw [show ([squote, squote] : List Char) ++ (ps.flatten ++ rest)
          = squote :: squote :: (ps.flatten ++ rest) from rfl]
      rw [unquotedLettersAux_pair]
      exact ih hps
    · rw [unquotedLettersAux_inquote_append _ hnq]
      exact ih hps

-- ------ piece parsing specifications ---------------------------------------

theorem pieceStep_spec {input p r : List Char}
    (h : pieceStep input = some (p, r)) :
    input = p ++ r
    ∧ (p = [squote, squote] ∨ (p ≠ [] ∧ ∀ c ∈ p, c ≠ squote)) := by
  unfold pieceStep at h
  cases hn : isNot [squote] input with
  | some pr =>
    rw [hn] at h
    obtain ⟨rfl, rfl⟩ : pr.1 = p ∧ pr.2 = r := by
      have h' := Option.some.inj h
      exact ⟨congrArg Prod.fst h', congrArg Prod.snd h'⟩
    obtain ⟨hin, hne, hmem⟩ := isNot_eq_some (hn.trans (by rfl))
    refine ⟨hin, Or.inr ⟨hne, fun c hc hcs => ?_⟩⟩
    exact hmem c hc (by simp [hcs])
  | none =>
    rw [hn] at h
    cases ht : tag [squote, squote] input with
    | some r2 =>
      rw [ht] at h
      obtain ⟨rfl, rfl⟩ : [squote, squote] = p ∧ r2 = r := by
        have h' := Option.some.inj h
        exact ⟨congrArg Prod.fst h', congrArg Prod.snd h'⟩
      exact ⟨tag_eq_some ht, Or.inl rfl⟩
    | none => rw [ht] at h; simp at h

theorem mem_filter_pred {p : Char → Bool} {l : List Char} {a : Char}
    (h : a ∈ l.filter p) : a ∈ l ∧ p a = true := by
  induction l with
  | nil => simp at h
  | cons x xs ih =>
    rw [List.filter_cons] at h
    by_cases hx : p x = true
    · simp only [hx, if_true] at h
      rcases List.mem_cons.1 h with rfl | h2
      · exact ⟨by simp, hx⟩
      · obtain ⟨h3, h4⟩ := ih h2
        exact ⟨by simp [h3], h4⟩
    · simp only [hx, if_false] at h
      obtain ⟨h3, h4⟩ := ih h
      exact ⟨by simp [h3], h4⟩

theorem manyPieces_spec :
    ∀ (fuel : Nat) {input : List Char} {ps : List (List Char)}
      {rest : List Char}, manyPieces fuel input = some (ps, rest) →
    input = ps.flatten ++ rest
    ∧ ∀ p ∈ ps, p = [squote, squote] ∨ (p ≠ [] ∧ ∀ c ∈ p, c ≠ squote) := by
  intro fuel
  induction fuel with
  | zero => intro input ps rest h; simp [manyPieces] at h
  | succ n ih =>
    intro input ps rest h
    rw [manyPieces] at h
    cases hp : pieceStep input with
    | none =>
      simp only [hp] at h
      obtain ⟨rfl, rfl⟩ : [] = ps ∧ input = rest := by
        have h' := Option.some.inj h
        exact ⟨congrArg Prod.fst h', congrArg Prod.snd h'⟩
      simp
    | some pr =>
      obtain ⟨p, r⟩ := pr
      simp only [hp] at h
      cases hm : manyPieces n r with
      | none =>
        simp only [hm] at h
        exact Option.noConfusion h
      | some psr =>
        obtain ⟨ps2, rest2⟩ := psr
        simp only [hm] at h
        obtain ⟨rfl, rfl⟩ : p :: ps2 = ps ∧ rest2 = rest := by
          have h' := Option.some.inj h
          exact ⟨congrArg Prod.fst h', congrArg Prod.snd h'⟩
        obtain ⟨hin, hone⟩ := pieceStep_spec hp
        obtain ⟨hin2, hall⟩ := ih hm
        constructor
        · rw [hin, hin2, List.flatten_cons, List.append_assoc]
        · intro q hq
          rcases List.mem_cons.1 hq with rfl | hq2
          · exact hone
          · exact hall q hq2

/-- The literal grammar contributes no unquoted letters: whatever token
`do_format_other` consumes, the scanner's collected letters over the input
are exactly those over the remaining input. -/
theorem do_format_other_scan {input r : List Char} {v : FmtRes}
    (h : do_format_other input = some (r, v)) :
    ∀ c ∈ unquotedLettersAux false input,
      c ∈ unquotedLettersAux false r := by
  unfold do_format_other at h
  cases hl : literalRun input with
  | some tkr =>
    obtain ⟨tk, r0⟩ := tkr
    simp only [hl] at h
    obtain ⟨rfl, -⟩ : r = r0 ∧ (Except.ok tk : FmtRes) = v := by
      have h' := Option.some.inj h
      exact ⟨(congrArg Prod.fst h').symm, congrArg Prod.snd h'⟩
    have hl2 : isNot (squote :: sourceLetters) input = some (tk, r) := by
      simpa [literalRun] using hl
    obtain ⟨hin, hne, hmem⟩ := isNot_eq_some hl2
    have hq : ∀ c ∈ tk, c ≠ squote := fun c hc hcs =>
      hmem c hc (by simp [hcs])
    have hns : ∀ c ∈ tk, c ∉ sourceLetters := fun c hc hcs =>
      hmem c hc (by simp [hcs])
    intro c hc
    rw [hin, unquotedLettersAux_append_no_quote _ hq] at hc
    rcases List.mem_append.1 hc with hc1 | hc2
    · obtain ⟨hmem2, hp2⟩ := mem_filter_pred hc1
      have hcs : c ∈ sourceLetters := by simpa using hp2
      exact absurd hcs (hns c hmem2)
    · exact hc2
  | none =>
    simp only [hl] at h
    cases ht2 : tag [squote, squote] input with
    | some r2 =>
      simp only [ht2] at h
      obtain ⟨rfl, -⟩ :
          r = r2 ∧ (Except.ok [squote, squote] : FmtRes) = v := by
        have h' := Option.some.inj h
        exact ⟨(congrArg Prod.fst h').symm, congrArg Prod.snd h'⟩
      have hin := tag_eq_some ht2
      intro c hc
      rw [hin] at hc
      rw [show ([squote, squote] : List Char) ++ r = squote :: squote :: r
        from rfl, unquotedLettersAux_pair] at hc
      exact hc
    | none =>
      simp only [ht2] at h
      cases ht1 : tag [squote] input with
      | none =>
        simp only [ht1] at h
        exact Option.noConfusion h
      | some r1 =>
        simp only [ht1] at h
        cases hmp : manyPieces (r1.length + 1) r1 with
        | none =>
          simp only [hmp] at h
          exact Option.noConfusion h
        | some psr =>
          obtain ⟨ps0, r2⟩ := psr
          cases ps0 with
          | nil =>
            simp only [hmp] at h
            exact Option.noConfusion h
          | cons p ps =>
            simp only [hmp] at h
            cases ht3 : tag [squote] r2 with
            | none =>
              simp only [ht3] at h
              exact Option.noConfusion h
            | some r3 =>
              simp only [ht3] at h
              obtain ⟨rfl, -⟩ : r = r3 ∧ _ = v := by
                have h' := Option.some.inj h
                exact ⟨(congrArg Prod.fst h').symm, congrArg Prod.snd h'⟩
              have hin1 := tag_eq_some ht1
              obtain ⟨hin2, hall⟩ := manyPieces_spec (r1.length + 1) hmp
              have hin3 := tag_eq_some ht3
              intro c hc
              rw [hin1] at hc
              rw [show ([squote] : List Char) ++ r1 = squote :: r1 from rfl,
                unquotedLettersAux_squote, Bool.not_false] at hc
              rw [hin2, hin3] at hc
              rw [show ([squote] : List Char) ++ r = squote :: r from rfl]
                at hc
              rw [unquotedLettersAux_flatten_pieces _ _
                (fun q hq => (hall q hq).imp id And.right)] at hc
              rw [unquotedLettersAux_squote, Bool.not_true] at hc
              exact hc

-- ------ letters consumed by the field grammars -----------------------------

theorem fieldAlts_scan {A : List Char} :
    ∀ (bs : FieldBranches) {input r : List Char} {v : FmtRes},
    (∀ (S : List Char) (k : List Char → FmtRes), (S, k) ∈ bs →
      (∀ c ∈ S, c ∈ A) ∧ squote ∉ S) →
    fieldAlts bs input = some (r, v) →
    ∀ c ∈ unquotedLettersAux false input,
      c ∈ A ∨ c ∈ unquotedLettersAux false r := by
  intro bs
  induction bs with
  | nil => intro input r v hb h; simp [fieldAlts] at h
  | cons b bs ih =>
    intro input r v hb h
    obtain ⟨S, k⟩ := b
    rw [fieldAlts] at h
    cases hA : isA S input with
    | some tkr =>
      obtain ⟨tk, r2⟩ := tkr
      simp only [hA] at h
      obtain ⟨rfl, -⟩ : r = r2 ∧ k tk = v := by
        have h' := Option.some.inj h
        exact ⟨(congrArg Prod.fst h').symm, congrArg Prod.snd h'⟩
      obtain ⟨hin, hne, hmem⟩ := isA_eq_some hA
      have hbh := hb S k (by simp)
      have hq : ∀ c ∈ tk, c ≠ squote := fun c hc heq =>
        hbh.2 (heq ▸ hmem c hc)
      intro c hc
      rw [hin, unquotedLettersAux_append_no_quote _ hq] at hc
      rcases List.mem_append.1 hc with hc1 | hc2
      · exact Or.inl (hbh.1 c (hmem c (mem_filter_pred hc1).1))
      · exact Or.inr hc2
    | none =>
      simp only [hA] at h
      exact ih (fun S2 k2 hp => hb S2 k2 (by simp [hp])) h

theorem do_format_date_scan (f : TimeFacet) (d : NaiveDate)
    {input r : List Char} {v : FmtRes}
    (h : do_format_date f d input = some (r, v)) :
    ∀ c ∈ unquotedLettersAux false input,
      c ∈ dateLetters ∨ c ∈ unquotedLettersAux false r := by
  refine fieldAlts_scan (dateBranches f d) ?_ h
  intro S k hp
  simp only [dateBranches, List.mem_cons, List.not_mem_nil, or_false] at hp
  rcases hp with h2 | h2 | h2 | h2 | h2 | h2 | h2 | h2 | h2 | h2 <;>
    (injection h2 with hS hk; subst hS; exact ⟨by decide, by decide⟩)

theorem do_format_time_scan (f : TimeFacet) (t : NaiveTime)
    {input r : List Char} {v : FmtRes}
    (h : do_format_time f t input = some (r, v)) :
    ∀ c ∈ unquotedLettersAux false input,
      c ∈ timeLetters ∨ c ∈ unquotedLettersAux false r := by
  refine fieldAlts_scan (timeBranches f t) ?_ h
  intro S k hp
  simp only [timeBranches, List.mem_cons, List.not_mem_nil, or_false] at hp
  rcases hp with h2 | h2 | h2 | h2 | h2 | h2 | h2 | h2 | h2 <;>
    (injection h2 with hS hk; subst hS; exact ⟨by decide, by decide⟩)

theorem do_format_zone_scan {input r : List Char} {v : FmtRes}
    (h : do_format_zone input = some (r, v)) :
    ∀ c ∈ unquotedLettersAux false input,
      c ∈ zoneLetters ∨ c ∈ unquotedLettersAux false r := by
  refine fieldAlts_scan _ ?_ h
  intro S k hp
  simp only [List.mem_cons, List.not_mem_nil, or_false] at hp
  injection hp with hS hk
  subst hS
  exact ⟨by decide, by decide⟩

theorem mem_allowed_append_left {c : Char} {dateO : Option NaiveDate}
    (d : NaiveDate) {timeO : Option NaiveTime} {tzSome : Bool}
    (hd : dateO = some d) (h : c ∈ dateLetters) :
    c ∈ allowedLetters dateO timeO tzSome := by
  subst hd
  simp [allowedLetters, h]

theorem mem_allowed_append_mid {c : Char} {dateO : Option NaiveDate}
    {timeO : Option NaiveTime} (t : NaiveTime) {tzSome : Bool}
    (ht : timeO = some t) (h : c ∈ timeLetters) :
    c ∈ allowedLetters dateO timeO tzSome := by
  subst ht
  simp [allowedLetters, h]

theorem mem_allowed_append_zone {c : Char} {dateO : Option NaiveDate}
    {timeO : Option NaiveTime} (h : c ∈ zoneLetters) :
    c ∈ allowedLetters dateO timeO true := by
  simp [allowedLetters, h]

/-- Whatever one fold step consumes, its unquoted letters are either
consumable field letters of some enabled branch or already letters of the
remaining input. -/
theorem formatStep_scan (f : TimeFacet) (dateO : Option NaiveDate)
    (timeO : Option NaiveTime) (tzSome : Bool) {input r : List Char}
    {v : FmtRes}
    (h : formatStep f dateO timeO tzSome input = some (r, v)) :
    ∀ c ∈ unquotedLettersAux false input,
      c ∈ allowedLetters dateO timeO tzSome
        ∨ c ∈ unquotedLettersAux false r := by
  unfold formatStep at h
  rcases orElse_eq_some h with h1 | ⟨e1, h'⟩
  · cases hdo : dateO with
    | none => rw [hdo] at h1; exact Option.noConfusion h1
    | some d =>
      rw [hdo] at h1
      intro c hc
      rcases do_format_date_scan f d h1 c hc with hc1 | hc2
      · exact Or.inl (mem_allowed_append_left d rfl hc1)
      · exact Or.inr hc2
  · rcases orElse_eq_some h' with h2 | ⟨e2, h''⟩
    · cases hto : timeO with
      | none => rw [hto] at h2; exact Option.noConfusion h2
      | some t =>
        rw [hto] at h2
        intro c hc
        rcases do_format_time_scan f t h2 c hc with hc1 | hc2
        · exact Or.inl (mem_allowed_append_mid t rfl hc1)
        · exact Or.inr hc2
    · rcases orElse_eq_some h'' with h3 | ⟨e3, h4⟩
      · cases tzSome with
        | false => simp at h3
        | true =>
          rw [if_pos rfl] at h3
          intro c hc
          rcases do_format_zone_scan h3 c hc with hc1 | hc2
          · exact Or.inl (mem_allowed_append_zone hc1)
          · exact Or.inr hc2
      · intro c hc
        exact Or.inr (do_format_other_scan h4 c hc)

/-- Master lemma: a successful render consumes the whole pattern, so every
unquoted letter of the pattern is a field letter of some enabled grammar
branch. -/
theorem foldFormat_ok_scan (f : TimeFacet) (dateO : Option NaiveDate)
    (timeO : Option NaiveTime) (tzSome : Bool) :
    ∀ (fuel : Nat) {input out : List Char},
    foldFormat f dateO timeO tzSome fuel input = ([], .ok out) →
    ∀ c ∈ unquotedLettersAux false input,
      c ∈ allowedLetters dateO timeO tzSome := by
  intro fuel
  induction fuel with
  | zero =>
    intro input out h
    have h1 : input = [] := congrArg Prod.fst h
    subst h1
    simp [unquotedLettersAux]
  | succ n ih =>
    intro input out h
    rw [foldFormat] at h
    cases hstep : formatStep f dateO timeO tzSome input with
    | none =>
      simp only [hstep] at h
      have h1 : input = [] := congrArg Prod.fst h
      subst h1
      simp [unquotedLettersAux]
    | some pr =>
      obtain ⟨rest, v⟩ := pr
      simp only [hstep] at h
      cases hf : foldFormat f dateO timeO tzSome n rest with
      | mk rem acc =>
      simp only [hf] at h
      have hrem : rem = [] := congrArg Prod.fst h
      have hres : resAnd v acc = .ok out := congrArg Prod.snd h
      have hacc : ∃ out2, acc = .ok out2 := by
        cases v with
        | error e => simp [resAnd] at hres
        | ok tk =>
          cases acc with
          | error e => simp [resAnd] at hres
          | ok l => exact ⟨l, rfl⟩
      obtain ⟨out2, hacc2⟩ := hacc
      have hfold2 : foldFormat f dateO timeO tzSome n rest
          = ([], .ok out2) := by
        rw [hf, hrem, hacc2]
      have hrec := ih hfold2
      intro c hc
      rcases formatStep_scan f dateO timeO tzSome hstep c hc with h1 | h2
      · exact h1
      · exact hrec c h2

theorem excToOption_eq_some {x : FmtRes} {s : String}
    (h : excToOption x = some s) : x = .ok s.data := by
  cases x with
  | ok l =>
    simp only [excToOption, Option.some.injEq] at h
    rw [← h]
  | error e => simp [excToOption] at h

/-- A successful render call only ever consumed unquoted letters belonging
to the field alphabets of the branches enabled by the supplied inputs. -/
theorem render_ok_letters (f : TimeFacet) (dateO : Option NaiveDate)
    (timeO : Option NaiveTime) (tzSome : Bool) (fmt : String) (out : String)
    (h : render f dateO timeO tzSome fmt = some out) :
    ∀ c ∈ unquotedLetters fmt.data,
      c ∈ allowedLetters dateO timeO tzSome := by
  unfold render at h
  have hfd := excToOption_eq_some h
  unfold format_datetime_to at hfd
  by_cases hnn : (dateO.isNone && timeO.isNone) = true
  · rw [if_pos hnn] at hfd
    exact Except.noConfusion hfd
  · rw [if_neg hnn] at hfd
    cases hfold : foldFormat f dateO timeO tzSome (fmt.data.length + 1)
        fmt.data with
    | mk rem r =>
    simp only [hfold] at hfd
    by_cases hrem : rem = []
    · rw [if_pos hrem] at hfd
      subst hfd
      exact foldFormat_ok_scan f dateO timeO tzSome _
        (by rw [hfold, hrem])
    · rw [if_neg hrem] at hfd
      exact Except.noConfusion hfd

-- ------ allowed-letter decompositions --------------------------------------

theorem mem_allowed_sub {c : Char} {dateO : Option NaiveDate}
    {timeO : Option NaiveTime} {tzSome : Bool}
    (h : c ∈ allowedLetters dateO timeO tzSome) :
    c ∈ dateLetters ∨ c ∈ timeLetters ∨ c ∈ zoneLetters := by
  unfold allowedLetters at h
  rcases List.mem_append.1 h with h1 | h2
  · rcases List.mem_append.1 h1 with ha | hb
    · left
      by_cases hd : dateO.isSome = true
      · rw [if_pos hd] at ha; exact ha
      · rw [if_neg hd] at ha; exact absurd ha (List.not_mem_nil c)
    · right; left
      by_cases ht : timeO.isSome = true
      · rw [if_pos ht] at hb; exact hb
      · rw [if_neg ht] at hb; exact absurd hb (List.not_mem_nil c)
  · right; right
    by_cases hz : tzSome = true
    · rw [if_pos hz] at h2; exact h2
    · rw [if_neg hz] at h2; exact absurd h2 (List.not_mem_nil c)

theorem mem_allowed_date_none {c : Char} {timeO : Option NaiveTime}
    {tzSome : Bool} (h : c ∈ allowedLetters none timeO tzSome) :
    c ∈ timeLetters ∨ c ∈ zoneLetters := by
  have h' : c ∈ (([] : List Char)
      ++ (if timeO.isSome then timeLetters else []))
      ++ (if tzSome then zoneLetters else []) := h
  rcases List.mem_append.1 h' with h1 | h2
  · rcases List.mem_append.1 h1 with h0 | hb
    · exact absurd h0 (List.not_mem_nil c)
    · left
      by_cases ht : timeO.isSome = true
      · rw [if_pos ht] at hb; exact hb
      · rw [if_neg ht] at hb; exact absurd hb (List.not_mem_nil c)
  · right
    by_cases hz : tzSome = true
    · rw [if_pos hz] at h2; exact h2
    · rw [if_neg hz] at h2; exact absurd h2 (List.not_mem_nil c)

theorem mem_allowed_time_none {c : Char} {dateO : Option NaiveDate}
    {tzSome : Bool} (h : c ∈ allowedLetters dateO none tzSome) :
    c ∈ dateLetters ∨ c ∈ zoneLetters := by
  have h' : c ∈ ((if dateO.isSome then dateLetters else [])
      ++ ([] : List Char))
      ++ (if tzSome then zoneLetters else []) := h
  rcases List.mem_append.1 h' with h1 | h2
  · rcases List.mem_append.1 h1 with ha | h0
    · left
      by_cases hd : dateO.isSome = true
      · rw [if_pos hd] at ha; exact ha
      · rw [if_neg hd] at ha; exact absurd ha (List.not_mem_nil c)
    · exact absurd h0 (List.not_mem_nil c)
  · right
    by_cases hz : tzSome = true
    · rw [if_pos hz] at h2; exact h2
    · rw [if_neg hz] at h2; exact absurd h2 (List.not_mem_nil c)

-- ------ claims C4, C5 ------------------------------------------------------

/-- C4: a render call whose pattern contains an unquoted date field letter
fails when no date was supplied (no date branch is enabled, no other
branch can consume a date letter, and the entry point rejects unconsumed
input); symmetrically for an unquoted time field letter with no time; and
a call with neither date nor time fails for every pattern. -/
theorem c4_missing_input (fmt : String) (f : TimeFacet)
    (dateO : Option NaiveDate) (timeO : Option NaiveTime) (tzSome : Bool)
    (h : ((∃ c ∈ unquotedLetters fmt.data, c ∈ dateLetters)
        ∧ dateO = none)
      ∨ ((∃ c ∈ unquotedLetters fmt.data, c ∈ timeLetters)
        ∧ timeO = none)
      ∨ (dateO = none ∧ timeO = none)) :
    render f dateO timeO tzSome fmt = none := by
  cases hr : render f dateO timeO tzSome fmt with
  | none => rfl
  | some out =>
    exfalso
    rcases h with ⟨⟨c, hcu, hcd⟩, rfl⟩ | ⟨⟨c, hcu, hct⟩, rfl⟩ | ⟨rfl, rfl⟩
    · have hm := render_ok_letters f none timeO tzSome fmt out hr
      have hsub := mem_allowed_date_none (hm c hcu)
      have hdisj : ∀ x ∈ dateLetters, x ∉ timeLetters ∧ x ∉ zoneLetters :=
        by decide
      rcases hsub with h1 | h1
      · exact (hdisj c hcd).1 h1
      · exact (hdisj c hcd).2 h1
    · have hm := render_ok_letters f dateO none tzSome fmt out hr
      have hsub := mem_allowed_time_none (hm c hcu)
      have hdisj : ∀ x ∈ timeLetters, x ∉ dateLetters ∧ x ∉ zoneLetters :=
        by decide
      rcases hsub with h1 | h1
      · exact (hdisj c hct).1 h1
      · exact (hdisj c hct).2 h1
    · have hnone : render f none none tzSome fmt = none := by
        unfold render format_datetime_to
        rw [if_pos (by rfl)]
        rfl
      rw [hnone] at hr
      exact Option.noConfusion hr

/-- C4, witness: the date field `y` with only a time supplied fails. -/
theorem c4_missing_input_witness :
    ((∃ c ∈ unquotedLetters (("y").data), c ∈ dateLetters)
      ∧ (none : Option NaiveDate) = none)
    ∧ render defaultFacet none (some ⟨2, 3, 4, 0⟩) false ("y") = none := by
  constructor
  · exact ⟨⟨'y', by decide, by decide⟩, rfl⟩
  · exact c4_missing_input ("y") defaultFacet none (some ⟨2, 3, 4, 0⟩) false
      (Or.inl ⟨⟨'y', by decide, by decide⟩, rfl⟩)

/-- C5: a pattern with an unquoted ASCII letter outside the recognized
field-symbol set (the specification's set: the date/time letters plus
`z Z O v V X x`) fails to render for every combination of supplied inputs
and every facet; and the literal-text branch of the grammar never consumes
any ASCII letter (`sourceLetters` is exactly the 52 ASCII letters, all of
which its `is_not_s!` set excludes). -/
theorem c5_unknown_symbol :
    (∀ (fmt : String) (f : TimeFacet) (dateO : Option NaiveDate)
        (timeO : Option NaiveTime) (tzSome : Bool),
      (∃ c ∈ unquotedLetters fmt.data, c ∉ recognizedLetters) →
      render f dateO timeO tzSome fmt = none)
    ∧ (∀ (input tk r : List Char), literalRun input = some (tk, r) →
      ∀ c ∈ tk, c ∉ sourceLetters) := by
  constructor
  · intro fmt f dateO timeO tzSome hex
    obtain ⟨c, hcu, hcr⟩ := hex
    cases hr : render f dateO timeO tzSome fmt with
    | none => rfl
    | some out =>
      exfalso
      have hm := render_ok_letters f dateO timeO tzSome fmt out hr c hcu
      have hsub := mem_allowed_sub hm
      have hd : ∀ x ∈ dateLetters, x ∈ recognizedLetters := by decide
      have htm : ∀ x ∈ timeLetters, x ∈ recognizedLetters := by decide
      have hz : ∀ x ∈ zoneLetters, x ∈ recognizedLetters := by decide
      rcases hsub with h1 | h1 | h1
      · exact hcr (hd c h1)
      · exact hcr (htm c h1)
      · exact hcr (hz c h1)
  · intro input tk r h c hc
    have h2 : isNot (squote :: sourceLetters) input = some (tk, r) := by
      simpa [literalRun] using h
    have hmem := (isNot_eq_some h2).2.2 c hc
    intro hcs
    exact hmem (List.mem_cons_of_mem _ hcs)

/-- C5, witness: pattern "p" fails with both date and time supplied. -/
theorem c5_unknown_symbol_witness :
    (∃ c ∈ unquotedLetters (("p").data), c ∉ recognizedLetters)
    ∧ render defaultFacet (some ⟨2017, 8, 9, 221, 32, 2017, Weekday.Wed⟩)
        (some ⟨2, 3, 4, 0⟩) false ("p") = none := by
  constructor
  · exact ⟨'p', by decide, by decide⟩
  · exact c5_unknown_symbol.1 ("p") defaultFacet
      (some ⟨2017, 8, 9, 221, 32, 2017, Weekday.Wed⟩) (some ⟨2, 3, 4, 0⟩)
      false ⟨'p', by decide, by decide⟩
